import Mathlib

/-!
Verification of the GnuCash-Helper business-logic core.

This file gives a shallow embedding of the functions in
`gnucash_helper.py` (`get_account`, `add_transaction`, `add_account`,
`last_n_transactions`, `get_env_var`, `get_book_name_from_env`,
`get_gnucash_dir`) and of the `balances` route of `app.py`, and proves
properties of them.

Modelling conventions:
* GnuCash/piecash split and balance values in a USD book are exact
  multiples of 1/100, so monetary values are modelled as integer cents
  (`Int`).
* Python exceptions and `sys.exit` are modelled with explicit sum types:
  `PyResult` records a normal Python return value (possibly `None`)
  or an uncaught exception, and `Except Nat` models `sys.exit code`.
* `book.save()` failing with a `GnucashException` is modelled by the
  boolean field `Book.saveFails` (the persisted book is unchanged when
  the save raises).
* piecash's `Split.is_debit` property is `value > 0`, and
  `Decimal.is_signed()` is `value < 0`; both external-library facts are
  embedded directly.
* Python string comparison and `str.lower` are re-implemented on char
  lists (`listCharLt`, `lowerStr`) because the corresponding core Lean
  string functions do not reduce in the kernel; for the ASCII account
  names involved they agree with Python's semantics, and comparison is
  by code point exactly as in Python.
-/

deriving instance DecidableEq for Except

namespace GnucashHelper

/-- Code point of a character, used for Python-style string comparison. -/
def charNat (c : Char) : Nat := c.toNat

/-- ASCII lower-casing of one character (Python `str.lower` restricted to
ASCII, which covers all account names occurring here). -/
def lowerChar (c : Char) : Char :=
  if 65 ≤ c.toNat && c.toNat ≤ 90 then Char.ofNat (c.toNat + 32) else c

/-- Python `s.lower()` (ASCII fragment). -/
def lowerStr (s : String) : String := ⟨s.data.map lowerChar⟩

/-- Python `<` on strings: lexicographic comparison by code point. -/
def listCharLt : List Char → List Char → Bool
  | _, [] => false
  | [], _ :: _ => true
  | a :: as, b :: bs =>
    if charNat a < charNat b then true
    else if charNat b < charNat a then false
    else listCharLt as bs

/-- Python `x <= y` on strings, as used by `sorted` (i.e. `¬ (y < x)`). -/
def strLeB (x y : String) : Bool := !(listCharLt y.data x.data)

/-- The decimal digit character for `n < 10`. -/
def digitChar (n : Nat) : Char := Char.ofNat (48 + n)

/-- Fuel-driven worker for `natDigitsRev`; structural recursion on the
fuel keeps it kernel-reducible.  With fuel at least `1` the result is the
least-significant-first decimal digit list of `n` (the fuel `n + 1` used
below always suffices since `n / 10` shrinks strictly). -/
def natDigitsRevGo : Nat → Nat → List Char
  | 0, _ => []
  | fuel + 1, n =>
    if n < 10 then [digitChar n]
    else digitChar (n % 10) :: natDigitsRevGo fuel (n / 10)

/-- Decimal digits of a natural number, least-significant first. -/
def natDigitsRev (n : Nat) : List Char := natDigitsRevGo (n + 1) n

/-- Insert a comma after every three characters of a least-significant-first
digit list, as Python's `,` format flag does on the integer part. -/
def commasRev : List Char → List Char
  | a :: b :: c :: d :: rest => a :: b :: c :: ',' :: commasRev (d :: rest)
  | xs => xs

/-- Most-significant-first decimal digits of `n` with thousands separators. -/
def commaDigits (n : Nat) : List Char := (commasRev (natDigitsRev n)).reverse

/-- The two fractional digits of a cent remainder `r < 100`. -/
def twoFrac (r : Nat) : List Char := [digitChar (r / 10), digitChar (r % 10)]

/-- Python `f-string` `{x:.2f}` applied to a non-negative amount of `a`
cents (no thousands separators), as in `last_n_transactions`. -/
def formatPlain (a : Nat) : String :=
  ⟨(natDigitsRev (a / 100)).reverse ++ '.' :: twoFrac (a % 100)⟩

/-- Python `f-string` `${x:,.2f}` applied to a (possibly negative) balance
of `c` cents, as in the `balances` route of `app.py`. -/
def formatComma (c : Int) : String :=
  ⟨'$' :: ((if c < 0 then ['-'] else []) ++
    commaDigits (c.natAbs / 100) ++ '.' :: twoFrac (c.natAbs % 100))⟩

/-- Python `fullname.replace(":", " ➔ ")` from the `balances` route. -/
def arrowName (s : String) : String :=
  ⟨(s.data.map (fun c => if c = ':' then [' ', '➔', ' '] else [c])).flatten⟩

/-- A piecash account, as far as this program observes it: leaf name, full
(colon-separated) name, the leaf names of its children, and the balance
returned by `get_balance()`, in cents. -/
structure Account where
  name : String
  fullname : String
  children : List String
  balance : Int
deriving DecidableEq

/-- A piecash split: a signed value in cents and the full name of the
account it references. -/
structure Split where
  value : Int
  account : String
deriving DecidableEq

/-- A piecash transaction: description, enter date (already rendered as
`str(enter_date.date())`), and its splits. -/
structure PTransaction where
  description : String
  enterDate : String
  splits : List Split
deriving DecidableEq

/-- A GnuCash book as this program observes it.  `currencies` and
`commodities` are the mnemonics in `book.currencies` / `book.commodities`;
`saveFails` says whether `book.save()` raises `GnucashException`;
`today` is the wall-clock date piecash stamps on a new transaction's
`enter_date`. -/
structure Book where
  accounts : List Account
  transactions : List PTransaction
  currencies : List String
  commodities : List String
  saveFails : Bool
  today : String
deriving DecidableEq

/-- piecash `Split.is_debit`: `value > 0`. -/
def is_debit (s : Split) : Bool := 0 < s.value

/-- `gnucash_helper.get_account`: first account whose full name matches
`account_name` case-insensitively, else `None`. -/
def get_account (account_name : String) (b : Book) : Option Account :=
  b.accounts.find? (fun a => lowerStr a.fullname == lowerStr account_name)

/-- Outcome of a Python call: a normal return (`None`, `True` or `False`)
together with the resulting persisted book, or an uncaught exception. -/
inductive PyResult where
  | returns (v : Option Bool) (b : Book)
  | raises
deriving DecidableEq

/-- `gnucash_helper.add_transaction`.  On the success path it builds
`Transaction(currency=usd, description=..., splits=[Split(value=amount,
account=credit), Split(value=-amount, account=debit)])` and saves the
book; a failing save raises `GnucashException`, which is caught and
reported as `False`.  When exactly one account lookup fails it returns
`False`; when both fail, no branch of the `if/elif` chain fires and the
function falls through, returning `None`.  A missing `USD` currency makes
`book.currencies(mnemonic='USD')` raise `KeyError`, which no `except`
clause catches. -/
def add_transaction (b : Book) (description : String) (amount : Int)
    (debit_acct credit_acct : String) : PyResult :=
  match get_account credit_acct b, get_account debit_acct b with
  | some credit, some debit =>
    if "USD" ∈ b.currencies then
      if b.saveFails then
        PyResult.returns (some false) b
      else
        PyResult.returns (some true)
          { b with transactions := b.transactions ++
              [{ description := description, enterDate := b.today,
                 splits := [{ value := amount, account := credit.fullname },
                            { value := -amount, account := debit.fullname }] }] }
    else PyResult.raises
  | some _, none => PyResult.returns (some false) b
  | none, some _ => PyResult.returns (some false) b
  | none, none => PyResult.returns none b

/-- `gnucash_helper.add_account`.  `Except.error 1` models `sys.exit(1)`,
which the code performs when `book.save()` raises while saving the new
account; every other failure returns `False`. -/
def add_account (b : Book) (new_acct_name parent : String) :
    Except Nat (Bool × Book) :=
  match b.accounts.find? (fun a => a.fullname == parent) with
  | some parent_account =>
    if lowerStr new_acct_name ∈ parent_account.children.map lowerStr then
      Except.ok (false, b)
    else if "USD" ∈ b.commodities then
      if b.saveFails then Except.error 1
      else Except.ok (true,
        { b with accounts := b.accounts ++
            [{ name := new_acct_name,
               fullname := parent ++ ":" ++ new_acct_name,
               children := [], balance := 0 }] })
    else Except.ok (false, b)
  | none => Except.ok (false, b)

/-- One normalized record produced by `last_n_transactions`. -/
structure TxnRecord where
  date : String
  source : String
  dest : String
  description : String
  amount : String
deriving DecidableEq

/-- The body of the loop in `last_n_transactions`: `None` when the
transaction does not have exactly two splits (the `continue` branch),
otherwise the normalized record.  The split classified by `is_debit`
becomes the destination; the amount is the destination split's value made
positive (`Decimal.is_signed` check) and formatted as `${x:.2f}`. -/
def processTxn (t : PTransaction) : Option TxnRecord :=
  match t.splits with
  | [s0, s1] =>
    let p := if is_debit s0 then (s1, s0) else (s0, s1)
    some { date := t.enterDate, source := p.1.account, dest := p.2.account,
           description := t.description,
           amount := "$" ++ formatPlain p.2.value.natAbs }
  | _ => none

/-- Python's `xs[-n:]`: the whole list when `n = 0` (since `-0 == 0`),
otherwise the last `min n (length xs)` elements. -/
def lastSlice (xs : List PTransaction) (n : Nat) : List PTransaction :=
  if n = 0 then xs else xs.drop (xs.length - n)

/-- `gnucash_helper.last_n_transactions`: reverse the last-`n` slice and
process each transaction, skipping those without exactly two splits. -/
def last_n_transactions (b : Book) (n : Nat) : List TxnRecord :=
  ((lastSlice b.transactions n).reverse).filterMap processTxn

/-- One entry of the balances listing: the display name (full name with
`:` replaced by ` ➔ `) and the formatted balance string. -/
structure BalEntry where
  fullname : String
  balance : String
deriving DecidableEq

/-- The dictionary built for one account in the `balances` route. -/
def mkBalEntry (a : Account) : BalEntry :=
  { fullname := arrowName a.fullname, balance := formatComma a.balance }

/-- The comparison used by `sorted(accounts, key=lambda x: x['fullname'])`:
Python's total string order on the display name. -/
def entryLe (x y : BalEntry) : Prop := strLeB x.fullname y.fullname = true

instance : DecidableRel entryLe := fun x y =>
  inferInstanceAs (Decidable (strLeB x.fullname y.fullname = true))

/-- Python's total string order on account full names. -/
def acctLe (x y : Account) : Prop := strLeB x.fullname y.fullname = true

instance : DecidableRel acctLe := fun x y =>
  inferInstanceAs (Decidable (strLeB x.fullname y.fullname = true))

/-- The `balances` route of `app.py`: build one entry per account of the
book, then sort by the entry's (display) `fullname` field. -/
def balances (b : Book) : List BalEntry :=
  List.insertionSort entryLe (b.accounts.map mkBalEntry)

/-- Spec-side companion of `balances`, following the spec's words
"sorted ascending by full account name": the accounts are sorted by their
original full names first and only then rendered.  It is compared with
the code-side `balances`, which sorts by the display name instead. -/
def balancesSortedByFullname (b : Book) : List BalEntry :=
  (List.insertionSort acctLe b.accounts).map mkBalEntry

/-- Checker for a least-significant-first digit list with thousands
separators: groups of three digits separated by commas, the final
(most significant) group having one to three digits. -/
def checkRevGroups : List Char → Bool
  | [a] => a.isDigit
  | [a, b] => a.isDigit && b.isDigit
  | [a, b, c] => a.isDigit && b.isDigit && c.isDigit
  | a :: b :: c :: ',' :: rest => a.isDigit && b.isDigit && c.isDigit && checkRevGroups rest
  | _ => false

/-- Checker for the reversed character list of
`<digits with thousands separators>.<2 digits>`. -/
def moneyBody : List Char → Bool
  | b :: a :: '.' :: groupsRev => a.isDigit && b.isDigit && checkRevGroups groupsRev
  | _ => false

/-- The spec's balance pattern `$<digits with thousands separators>.<2
digits>` (no sign allowed). -/
def matchesMoney (s : String) : Bool :=
  match s.data with
  | '$' :: rest => moneyBody rest.reverse
  | _ => false

/-- The balance pattern with an optional minus sign after the dollar sign,
which is what Python's `f'${x:,.2f}'` actually produces. -/
def matchesMoneySigned (s : String) : Bool :=
  match s.data with
  | '$' :: rest =>
    moneyBody (if rest.head? = some '-' then rest.tail else rest).reverse
  | _ => false

/-- A process environment: an association list of variable names and
values. -/
abbrev Env : Type := List (String × String)

/-- `os.environ[name]` lookup. -/
def envLookup (e : Env) (name : String) : Option String :=
  (e.find? (fun p => p.1 == name)).map (fun p => p.2)

/-- `gnucash_helper.get_env_var`: on `KeyError` it logs at critical
severity and falls off the end of the function, returning `None`; it
never exits, so the `Except.error` branch of the shared config-read
codomain is unreachable here. -/
def get_env_var (e : Env) (name : String) : Except Nat (Option String) :=
  Except.ok (envLookup e name)

/-- `gnucash_helper.get_book_name_from_env`: `sys.exit(1)` when
`GNUCASH_FILE` is unset. -/
def get_book_name_from_env (e : Env) : Except Nat (Option String) :=
  match envLookup e "GNUCASH_FILE" with
  | some v => Except.ok (some v)
  | none => Except.error 1

/-- `gnucash_helper.get_gnucash_dir`: `sys.exit(1)` when `GNUCASH_DIR` is
unset. -/
def get_gnucash_dir (e : Env) : Except Nat (Option String) :=
  match envLookup e "GNUCASH_DIR" with
  | some v => Except.ok (some v)
  | none => Except.error 1

/-- `listCharLt` is asymmetric: Python's strict string order never holds in
both directions. -/
theorem listCharLt_asymm : ∀ (x y : List Char),
    listCharLt x y = true → listCharLt y x = false
  | [], [] => by simp [listCharLt]
  | [], _ :: _ => by simp [listCharLt]
  | _ :: _, [] => by simp [listCharLt]
  | a :: as, b :: bs => by
    intro h
    by_cases h1 : charNat a < charNat b
    · have h2 : ¬ charNat b < charNat a := by omega
      simp [listCharLt, h1, h2]
    · by_cases h2 : charNat b < charNat a
      · simp [listCharLt, h1, h2] at h
      · simp only [listCharLt, if_neg h1, if_neg h2] at h
        simp only [listCharLt, if_neg h1, if_neg h2]
        exact listCharLt_asymm as bs h

/-- Converse-negative transitivity of `listCharLt`, i.e. transitivity of
Python's `<=` on strings. -/
theorem listCharLt_le_trans (a : List Char) : ∀ (b c : List Char),
    listCharLt b a = false → listCharLt c b = false → listCharLt c a = false := by
  induction a with
  | nil => intro b c _ _; cases c <;> simp [listCharLt]
  | cons x xs ih =>
    intro b c h1 h2
    cases b with
    | nil => simp [listCharLt] at h1
    | cons y ys =>
      cases c with
      | nil => simp [listCharLt] at h2
      | cons z zs =>
        by_cases hyx : charNat y < charNat x
        · simp [listCharLt, hyx] at h1
        · by_cases hzy : charNat z < charNat y
          · simp [listCharLt, hzy] at h2
          · by_cases hxy : charNat x < charNat y
            · have hxz : charNat x < charNat z := by omega
              have hzx : ¬ charNat z < charNat x := by omega
              simp [listCharLt, hzx, hxz]
            · by_cases hyz : charNat y < charNat z
              · have hxz : charNat x < charNat z := by omega
                have hzx : ¬ charNat z < charNat x := by omega
                simp [listCharLt, hzx, hxz]
              · have hzx : ¬ charNat z < charNat x := by omega
                by_cases hxz : charNat x < charNat z
                · simp [listCharLt, hzx, hxz]
                · simp only [listCharLt, if_neg hyx, if_neg hxy] at h1
                  simp only [listCharLt, if_neg hzy, if_neg hyz] at h2
                  simp only [listCharLt, if_neg hzx, if_neg hxz]
                  exact ih ys zs h1 h2

instance : IsTotal BalEntry entryLe :=
  ⟨by
    intro a b
    unfold entryLe strLeB
    cases h : listCharLt b.fullname.data a.fullname.data with
    | false => exact Or.inl (by simp [h])
    | true => exact Or.inr (by simp [listCharLt_asymm _ _ h])⟩

instance : IsTrans BalEntry entryLe :=
  ⟨by
    intro a b c hab hbc
    unfold entryLe strLeB at *
    simp only [Bool.not_eq_true'] at *
    exact listCharLt_le_trans _ _ _ hab hbc⟩

/-- Digit characters are digits. -/
theorem digitChar_isDigit (k : Nat) (hk : k < 10) : (digitChar k).isDigit = true := by
  have h : ∀ j : Fin 10, (digitChar j.val).isDigit = true := by decide
  exact h ⟨k, hk⟩

/-- Every character produced by the digit worker is a digit. -/
theorem natDigitsRevGo_digits : ∀ (fuel n : Nat), ∀ c ∈ natDigitsRevGo fuel n, c.isDigit = true := by
  intro fuel
  induction fuel with
  | zero => intro n c hc; simp [natDigitsRevGo] at hc
  | succ fuel ih =>
    intro n c hc
    by_cases h : n < 10
    · simp [natDigitsRevGo, h] at hc
      subst hc
      exact digitChar_isDigit n h
    · simp only [natDigitsRevGo, if_neg h, List.mem_cons] at hc
      rcases hc with hc | hc
      · subst hc
        exact digitChar_isDigit (n % 10) (Nat.mod_lt _ (by omega))
      · exact ih (n / 10) c hc

/-- The digit worker never returns the empty list when given fuel. -/
theorem natDigitsRevGo_ne_nil (fuel n : Nat) : natDigitsRevGo (fuel + 1) n ≠ [] := by
  by_cases h : n < 10 <;> simp [natDigitsRevGo, h]

/-- `natDigitsRev` is nonempty. -/
theorem natDigitsRev_ne_nil (n : Nat) : natDigitsRev n ≠ [] :=
  natDigitsRevGo_ne_nil n n

/-- `natDigitsRev` chars are digits. -/
theorem natDigitsRev_digits (n : Nat) : ∀ c ∈ natDigitsRev n, c.isDigit = true :=
  natDigitsRevGo_digits (n + 1) n

/-- `commasRev` keeps a nonempty list nonempty. -/
theorem commasRev_ne_nil : ∀ (l : List Char), l ≠ [] → commasRev l ≠ []
  | [], h => absurd rfl h
  | [_], _ => by simp [commasRev]
  | [_, _], _ => by simp [commasRev]
  | [_, _, _], _ => by simp [commasRev]
  | _ :: _ :: _ :: _ :: _, _ => by simp [commasRev]

/-- Every character of `commasRev l` is a character of `l` or a comma. -/
theorem mem_commasRev : ∀ (l : List Char), ∀ c ∈ commasRev l, c ∈ l ∨ c = ','
  | [] => by simp [commasRev]
  | [a] => by simp [commasRev]
  | [a, b] => by intro c hc; simp [commasRev] at hc; rcases hc with h | h <;> simp [h]
  | [a, b, e] => by intro c hc; simp [commasRev] at hc; rcases hc with h | h | h <;> simp [h]
  | a :: b :: e :: d :: rest => by
    intro c hc
    simp only [commasRev, List.mem_cons] at hc
    rcases hc with h | h | h | h | h
    · exact Or.inl (by simp [h])
    · exact Or.inl (by simp [h])
    · exact Or.inl (by simp [h])
    · exact Or.inr h
    · rcases mem_commasRev (d :: rest) c h with h2 | h2
      · exact Or.inl (by simp [List.mem_cons] at h2 ⊢; tauto)
      · exact Or.inr h2

/-- A nonempty all-digit list, grouped by `commasRev`, passes the grouped
digit checker. -/
theorem checkRevGroups_commasRev : ∀ (l : List Char), l ≠ [] →
    (∀ c ∈ l, c.isDigit = true) → checkRevGroups (commasRev l) = true
  | [], h, _ => absurd rfl h
  | [a], _, hd => by simp [commasRev, checkRevGroups, hd a (by simp)]
  | [a, b], _, hd => by
    simp [commasRev, checkRevGroups, hd a (by simp), hd b (by simp)]
  | [a, b, c], _, hd => by
    simp [commasRev, checkRevGroups, hd a (by simp), hd b (by simp), hd c (by simp)]
  | a :: b :: c :: d :: rest, _, hd => by
    have hrec := checkRevGroups_commasRev (d :: rest) (by simp)
      (fun x hx => hd x (by simp [List.mem_cons] at hx ⊢; tauto))
    have hcr := commasRev_ne_nil (d :: rest) (by simp)
    rcases he : commasRev (d :: rest) with _ | ⟨e, es⟩
    · exact absurd he hcr
    · rw [he] at hrec
      simp only [commasRev, he, checkRevGroups]
      simp [hd a (by simp), hd b (by simp), hd c (by simp), hrec]

/-- The comma-grouped rendering of any natural number passes the grouped
digit checker. -/
theorem checkRevGroups_commaDigits (n : Nat) :
    checkRevGroups (commaDigits n).reverse = true := by
  unfold commaDigits
  rw [List.reverse_reverse]
  exact checkRevGroups_commasRev _ (natDigitsRev_ne_nil n) (natDigitsRev_digits n)

/-- `commaDigits` is nonempty. -/
theorem commaDigits_ne_nil (n : Nat) : commaDigits n ≠ [] := by
  unfold commaDigits
  intro hx
  exact commasRev_ne_nil _ (natDigitsRev_ne_nil n)
    (by simpa using congrArg List.reverse hx)

/-- The digits-with-separators body followed by a dot and two fractional
digits passes the money-body checker. -/
theorem moneyBody_core (q r : Nat) (hr : r < 100) :
    moneyBody (commaDigits q ++ '.' :: twoFrac r).reverse = true := by
  have hd1 : (digitChar (r / 10)).isDigit = true := digitChar_isDigit _ (by omega)
  have hd2 : (digitChar (r % 10)).isDigit = true :=
    digitChar_isDigit _ (Nat.mod_lt _ (by omega))
  have hgroups := checkRevGroups_commaDigits q
  rw [show (commaDigits q ++ '.' :: twoFrac r).reverse
        = digitChar (r % 10) :: digitChar (r / 10) :: '.' :: (commaDigits q).reverse by
      simp [twoFrac]]
  simp [moneyBody, hd1, hd2, hgroups]

/-- Balance strings produced by the `balances` route always match the
signed money pattern. -/
theorem formatComma_matchesSigned (c : Int) :
    matchesMoneySigned (formatComma c) = true := by
  have hr : c.natAbs % 100 < 100 := Nat.mod_lt _ (by omega)
  unfold formatComma matchesMoneySigned
  obtain ⟨e, es, he⟩ := List.exists_cons_of_ne_nil (commaDigits_ne_nil (c.natAbs / 100))
  have hedig : e.isDigit = true ∨ e = ',' := by
    have hmem : e ∈ commasRev (natDigitsRev (c.natAbs / 100)) := by
      have hm : e ∈ commaDigits (c.natAbs / 100) := by rw [he]; simp
      unfold commaDigits at hm
      simpa using hm
    rcases mem_commasRev _ e hmem with h | h
    · exact Or.inl (natDigitsRev_digits _ e h)
    · exact Or.inr h
  have hne : e ≠ '-' := by
    rcases hedig with h | h
    · intro hx; rw [hx] at h; exact absurd h (by decide)
    · intro hx; rw [h] at hx; exact absurd hx (by decide)
  by_cases hneg : c < 0
  · simp only [if_pos hneg, List.cons_append, List.nil_append, List.head?_cons,
      List.tail_cons, if_pos rfl]
    exact moneyBody_core _ _ hr
  · simp only [if_neg hneg, List.nil_append]
    rw [he]
    simp only [List.cons_append, List.head?_cons]
    rw [if_neg (by simp [hne])]
    rw [← List.cons_append, ← he]
    exact moneyBody_core _ _ hr

/-- The loop body skips a transaction exactly when its split count is not
two. -/
theorem processTxn_eq_none_iff (t : PTransaction) :
    processTxn t = none ↔ t.splits.length ≠ 2 := by
  rcases hs : t.splits with _ | ⟨s0, _ | ⟨s1, _ | ⟨s2, rest⟩⟩⟩ <;>
    simp [processTxn, hs]

/-- A list whose elements all map to `some` keeps its length under
`filterMap`. -/
theorem length_filterMap_of_isSome {α β : Type} (f : α → Option β) :
    ∀ (l : List α), (∀ a ∈ l, (f a).isSome = true) →
      (l.filterMap f).length = l.length := by
  intro l
  induction l with
  | nil => intro _; rfl
  | cons a as ih =>
    intro h
    have ha := h a (by simp)
    rcases hfa : f a with _ | b
    · rw [hfa] at ha; simp at ha
    · simp only [List.filterMap_cons, hfa, List.length_cons]
      rw [ih (fun x hx => h x (by simp [hx]))]

/-- Pre-filtering the transactions that have exactly two splits does not
change the result of processing: malformed transactions are skipped
individually and the rest are still processed. -/
theorem filterMap_processTxn_eq_filter (l : List PTransaction) :
    l.filterMap processTxn
      = (l.filter (fun t => t.splits.length == 2)).filterMap processTxn := by
  induction l with
  | nil => rfl
  | cons t ts ih =>
    by_cases h : t.splits.length = 2
    · simp [List.filter_cons, h, List.filterMap_cons, ih]
    · have hn : processTxn t = none := (processTxn_eq_none_iff t).mpr h
      simp [List.filter_cons, h, List.filterMap_cons, hn, ih]

/-- On two-split transactions `processTxn` always produces a record. -/
theorem processTxn_isSome_of_two (t : PTransaction) (h : t.splits.length = 2) :
    (processTxn t).isSome = true := by
  rcases hn : processTxn t with _ | r
  · exact absurd ((processTxn_eq_none_iff t).mp hn) (by simp [h])
  · rfl

/-- Books used as concrete instances in the statements below. -/
def bkC1 : Book :=
  { accounts := [{ name := "Cash", fullname := "Assets:Cash", children := [], balance := 0 },
                 { name := "Food", fullname := "Expenses:Food", children := [], balance := 0 }],
    transactions := [], currencies := ["USD"], commodities := ["USD"],
    saveFails := false, today := "2021-01-01" }

/-- The book produced by the successful `add_transaction` call on `bkC1`. -/
def bkC1r : Book :=
  { bkC1 with transactions :=
      [{ description := "Lunch", enterDate := "2021-01-01",
         splits := [{ value := 1250, account := "Expenses:Food" },
                    { value := -1250, account := "Assets:Cash" }] }] }

/-- C1: a successful `add_transaction` call appends exactly one transaction
holding exactly two splits, a credit split of value `+amount` on the
resolved credit account and a debit split of value `-amount` on the
resolved debit account, whose values sum to zero. -/
theorem add_transaction_two_balanced_splits (b : Book) (descr : String)
    (amount : Int) (dA cA : String) (b' : Book)
    (h : add_transaction b descr amount dA cA = PyResult.returns (some true) b') :
    ∃ credit debit : Account,
      get_account cA b = some credit ∧ get_account dA b = some debit ∧
      ∃ tx : PTransaction,
        b'.transactions = b.transactions ++ [tx] ∧
        tx.splits = [{ value := amount, account := credit.fullname },
                     { value := -amount, account := debit.fullname }] ∧
        tx.splits.length = 2 ∧ (tx.splits.map Split.value).sum = 0 := by
  rcases hc : get_account cA b with _ | credit
  · rcases hd : get_account dA b with _ | debit <;> simp [add_transaction, hc, hd] at h
  · rcases hd : get_account dA b with _ | debit
    · simp [add_transaction, hc, hd] at h
    · simp only [add_transaction, hc, hd] at h
      split_ifs at h with hu hsv
      · simp at h
      · injection h with h1 h2
        subst h2
        refine ⟨credit, debit, rfl, rfl, ?_⟩
        exact ⟨_, rfl, rfl, rfl, by simp⟩

/-- C1 witness: the theorem applied to the concrete book `bkC1`. -/
theorem add_transaction_two_balanced_splits_witness :
    ∃ credit debit : Account,
      get_account "Expenses:Food" bkC1 = some credit ∧
      get_account "Assets:Cash" bkC1 = some debit ∧
      ∃ tx : PTransaction,
        bkC1r.transactions = bkC1.transactions ++ [tx] ∧
        tx.splits = [{ value := 1250, account := credit.fullname },
                     { value := -1250, account := debit.fullname }] ∧
        tx.splits.length = 2 ∧ (tx.splits.map Split.value).sum = 0 :=
  add_transaction_two_balanced_splits bkC1 "Lunch" 1250 "Assets:Cash"
    "Expenses:Food" bkC1r (by decide)

/-- Book with a single resolvable account, used for the C2 counterexample. -/
def bkC2 : Book :=
  { accounts := [{ name := "Food", fullname := "Expenses:Food", children := [], balance := 0 }],
    transactions := [], currencies := ["USD"], commodities := ["USD"],
    saveFails := false, today := "2021-01-01" }

/-- C2 counterexample: when NEITHER account name resolves, the `if/elif`
chain of `add_transaction` falls through and the function returns `None`,
not `False` (the book is still unmutated). -/
theorem add_transaction_both_missing_returns_none :
    get_account "NoSuchA" bkC2 = none ∧ get_account "NoSuchB" bkC2 = none ∧
    add_transaction bkC2 "Bad" 500 "NoSuchA" "NoSuchB" = PyResult.returns none bkC2 ∧
    PyResult.returns (none : Option Bool) bkC2 ≠ PyResult.returns (some false) bkC2 := by
  decide

/-- C2 amended: when at least one account name fails to resolve,
`add_transaction` performs no mutation (the returned book is unchanged)
and returns a non-`True` value: `False` when exactly one lookup fails,
and `None` (fall-through) when both fail. -/
theorem add_transaction_missing_account (b : Book) (descr : String)
    (amount : Int) (dA cA : String)
    (h : get_account cA b = none ∨ get_account dA b = none) :
    add_transaction b descr amount dA cA =
      PyResult.returns
        (if get_account cA b = none ∧ get_account dA b = none
         then none else some false) b := by
  rcases hc : get_account cA b with _ | credit <;>
    rcases hd : get_account dA b with _ | debit
  · simp [add_transaction, hc, hd]
  · simp [add_transaction, hc, hd]
  · simp [add_transaction, hc, hd]
  · rcases h with h | h
    · rw [hc] at h; exact absurd h (by simp)
    · rw [hd] at h; exact absurd h (by simp)

/-- C2 amended witness: the spec's own scenario (`"NoSuchAccount"` as the
debit account) evaluated through the amended theorem. -/
theorem add_transaction_missing_account_witness :
    add_transaction bkC2 "Bad" 500 "NoSuchAccount" "Expenses:Food" =
      PyResult.returns
        (if get_account "Expenses:Food" bkC2 = none ∧
            get_account "NoSuchAccount" bkC2 = none
         then none else some false) bkC2 :=
  add_transaction_missing_account bkC2 "Bad" 500 "NoSuchAccount"
    "Expenses:Food" (Or.inr (by decide))

/-- Book with one well-formed transaction, used for C3. -/
def bkC3 : Book :=
  { accounts := [], transactions :=
      [{ description := "t", enterDate := "2021-01-01",
         splits := [{ value := 500, account := "X" },
                    { value := -500, account := "Y" }] }],
    currencies := ["USD"], commodities := ["USD"],
    saveFails := false, today := "2021-01-01" }

/-- C3 counterexample: for `n = 0` Python's slice `transactions[-0:]` is
the whole list, so `last_n_transactions` returns one record instead of at
most zero. -/
theorem last_n_transactions_zero_not_bounded :
    (last_n_transactions bkC3 0).length = 1 ∧
    ¬ ((last_n_transactions bkC3 0).length ≤ 0) := by
  decide

/-- C3 amended: for every `n ≥ 1`, `last_n_transactions` is the reverse of
the last-`n` slice (most-recent-first) with malformed transactions
filtered out, has at most `n` records, and falls short of `n` only when
the book has fewer than `n` transactions or some transaction of the slice
does not have exactly two splits.  (For `n = 0` the slice `[-0:]` is the
whole list, as the counterexample shows.) -/
theorem last_n_transactions_bounded (b : Book) (n : Nat) (hn : 1 ≤ n) :
    last_n_transactions b n
        = ((b.transactions.drop (b.transactions.length - n)).reverse).filterMap processTxn ∧
    (last_n_transactions b n).length ≤ n ∧
    ((last_n_transactions b n).length < n →
      b.transactions.length < n ∨
        ∃ t ∈ b.transactions.drop (b.transactions.length - n), t.splits.length ≠ 2) := by
  have hs : lastSlice b.transactions n = b.transactions.drop (b.transactions.length - n) := by
    unfold lastSlice
    rw [if_neg (by omega)]
  refine ⟨by unfold last_n_transactions; rw [hs], ?_, ?_⟩
  · calc (last_n_transactions b n).length
        ≤ (lastSlice b.transactions n).reverse.length :=
          List.length_filterMap_le _ _
      _ = (lastSlice b.transactions n).length := List.length_reverse _
      _ ≤ n := by rw [hs, List.length_drop]; omega
  · intro hlt
    by_contra hcon
    push_neg at hcon
    obtain ⟨hge, hall⟩ := hcon
    have hlen : (last_n_transactions b n).length
        = (lastSlice b.transactions n).reverse.length := by
      apply length_filterMap_of_isSome
      intro t ht
      exact processTxn_isSome_of_two t (hall t (by rw [← hs, ← List.mem_reverse]; exact ht))
    have hslice : (lastSlice b.transactions n).length = n := by
      rw [hs, List.length_drop]; omega
    rw [hlen, List.length_reverse, hslice] at hlt
    omega

/-- C3 amended witness: the amended theorem applied at `n = 1` to `bkC3`. -/
theorem last_n_transactions_bounded_witness :
    last_n_transactions bkC3 1
        = ((bkC3.transactions.drop (bkC3.transactions.length - 1)).reverse).filterMap processTxn ∧
    (last_n_transactions bkC3 1).length ≤ 1 ∧
    ((last_n_transactions bkC3 1).length < 1 →
      bkC3.transactions.length < 1 ∨
        ∃ t ∈ bkC3.transactions.drop (bkC3.transactions.length - 1), t.splits.length ≠ 2) :=
  last_n_transactions_bounded bkC3 1 (by omega)

/-- C4: if a book in which `"Assets:Cash"` and `"Expenses:Food"` resolve
to the accounts of those exact names accepts
`add_transaction(book, "Lunch", 12.50, "Assets:Cash", "Expenses:Food")`
(returning `True`), then `last_n_transactions(book, 1)` returns exactly
one record with source `"Assets:Cash"`, dest `"Expenses:Food"`, amount
`"$12.50"` and description `"Lunch"`. -/
theorem add_transaction_roundtrip (b b' : Book) (credit debit : Account)
    (hc : get_account "Expenses:Food" b = some credit)
    (hcf : credit.fullname = "Expenses:Food")
    (hd : get_account "Assets:Cash" b = some debit)
    (hdf : debit.fullname = "Assets:Cash")
    (h : add_transaction b "Lunch" 1250 "Assets:Cash" "Expenses:Food"
          = PyResult.returns (some true) b') :
    last_n_transactions b' 1 =
      [{ date := b.today, source := "Assets:Cash", dest := "Expenses:Food",
         description := "Lunch", amount := "$12.50" }] := by
  simp only [add_transaction, hc, hd] at h
  split_ifs at h with hu hsv
  · simp at h
  · injection h with h1 h2
    subst h2
    unfold last_n_transactions lastSlice
    rw [if_neg (by omega : ¬ (1:Nat) = 0)]
    simp only [List.length_append, List.length_cons, List.length_nil]
    rw [show b.transactions.length + (0 + 1) - 1 = b.transactions.length by omega]
    rw [List.drop_left]
    have hdb : is_debit { value := (1250:Int), account := credit.fullname } = true := rfl
    simp only [List.reverse_cons, List.reverse_nil, List.nil_append,
      List.filterMap_cons, processTxn, hdb, if_pos rfl, List.filterMap_nil]
    rw [hcf, hdf]
    rfl

/-- Book used for the C4 witness. -/
def bkC4 : Book :=
  { accounts := [{ name := "Cash", fullname := "Assets:Cash", children := [], balance := 0 },
                 { name := "Food", fullname := "Expenses:Food", children := [], balance := 0 }],
    transactions :=
      [{ description := "old", enterDate := "2020-12-31",
         splits := [{ value := 100, account := "Expenses:Food" },
                    { value := -100, account := "Assets:Cash" }] }],
    currencies := ["USD"], commodities := ["USD"],
    saveFails := false, today := "2021-01-01" }

/-- The book produced by the C4 witness call. -/
def bkC4r : Book :=
  { bkC4 with transactions := bkC4.transactions ++
      [{ description := "Lunch", enterDate := "2021-01-01",
         splits := [{ value := 1250, account := "Expenses:Food" },
                    { value := -1250, account := "Assets:Cash" }] }] }

/-- C4 witness: the round-trip theorem applied to the concrete book
`bkC4`, which already holds one earlier transaction. -/
theorem add_transaction_roundtrip_witness :
    last_n_transactions bkC4r 1 =
      [{ date := bkC4.today, source := "Assets:Cash", dest := "Expenses:Food",
         description := "Lunch", amount := "$12.50" }] :=
  add_transaction_roundtrip bkC4 bkC4r
    { name := "Food", fullname := "Expenses:Food", children := [], balance := 0 }
    { name := "Cash", fullname := "Assets:Cash", children := [], balance := 0 }
    (by decide) rfl (by decide) rfl (by decide)

/-- Book holding one transaction whose splits are `(0, -500)`: only the
second split has a negative value, used for the C6 counterexample. -/
def bkC6 : Book :=
  { accounts := [], transactions :=
      [{ description := "t", enterDate := "2021-01-01",
         splits := [{ value := 0, account := "Z" },
                    { value := -500, account := "N" }] }],
    currencies := ["USD"], commodities := ["USD"],
    saveFails := false, today := "2021-01-01" }

/-- C6 counterexample: in `bkC6` the unique negative-valued split (on
account `"N"`) is classified as the DESTINATION, not the source, because
the classification actually branches on `splits[0].is_debit`
(i.e. `value > 0`), which is false for the zero-valued first split. -/
theorem negative_split_classified_as_dest :
    last_n_transactions bkC6 1 =
      [{ date := "2021-01-01", source := "Z", dest := "N",
         description := "t", amount := "$5.00" }] ∧
    ((-500 : Int) < 0 ∧ ¬ ((0 : Int) < 0)) ∧ "Z" ≠ "N" := by
  decide

/-- C6 amended: for a returned record whose transaction has one split of
negative value and one of positive value, the negative split's account is
the source, the positive split's account is the destination, and the
displayed amount is the absolute value of the destination split's value
formatted with two decimals behind a dollar sign.  (When one split is
zero the classification instead follows the sign of `splits[0]` alone, as
the counterexample shows.) -/
theorem record_source_negative_split (t : PTransaction) (s0 s1 : Split)
    (r : TxnRecord) (hs : t.splits = [s0, s1]) (hr : processTxn t = some r) :
    (s0.value < 0 ∧ 0 < s1.value →
      r.source = s0.account ∧ r.dest = s1.account ∧
      r.amount = "$" ++ formatPlain s1.value.natAbs) ∧
    (s1.value < 0 ∧ 0 < s0.value →
      r.source = s1.account ∧ r.dest = s0.account ∧
      r.amount = "$" ++ formatPlain s0.value.natAbs) := by
  rcases t with ⟨td, te, ts⟩
  simp only at hs
  subst hs
  constructor
  · rintro ⟨h0, h1⟩
    have hdb : is_debit s0 = false := by
      simp only [is_debit, decide_eq_false_iff_not, not_lt]
      omega
    simp only [processTxn, hdb, Bool.false_eq_true, if_false,
      Option.some.injEq] at hr
    subst hr
    exact ⟨rfl, rfl, rfl⟩
  · rintro ⟨h1, h0⟩
    have hdb : is_debit s0 = true := by
      simp only [is_debit, decide_eq_true_eq]
      omega
    simp only [processTxn, hdb, if_true, Option.some.injEq] at hr
    subst hr
    exact ⟨rfl, rfl, rfl⟩

/-- Transaction used for the C6 amended witness. -/
def txC6 : PTransaction :=
  { description := "w", enterDate := "2021-01-02",
    splits := [{ value := -250, account := "S" },
               { value := 250, account := "D" }] }

/-- C6 amended witness: the amended theorem applied to a concrete
transaction with a negative first split and positive second split. -/
theorem record_source_negative_split_witness :
    (((-250 : Int) < 0 ∧ (0 : Int) < 250) →
      ({ date := "2021-01-02", source := "S", dest := "D", description := "w",
         amount := "$2.50" } : TxnRecord).source = "S" ∧
      ({ date := "2021-01-02", source := "S", dest := "D", description := "w",
         amount := "$2.50" } : TxnRecord).dest = "D" ∧
      ({ date := "2021-01-02", source := "S", dest := "D", description := "w",
         amount := "$2.50" } : TxnRecord).amount
        = "$" ++ formatPlain (Int.natAbs 250)) ∧
    (((250 : Int) < 0 ∧ (0 : Int) < -250) →
      ({ date := "2021-01-02", source := "S", dest := "D", description := "w",
         amount := "$2.50" } : TxnRecord).source = "D" ∧
      ({ date := "2021-01-02", source := "S", dest := "D", description := "w",
         amount := "$2.50" } : TxnRecord).dest = "S" ∧
      ({ date := "2021-01-02", source := "S", dest := "D", description := "w",
         amount := "$2.50" } : TxnRecord).amount
        = "$" ++ formatPlain (Int.natAbs (-250))) :=
  record_source_negative_split txC6
    { value := -250, account := "S" } { value := 250, account := "D" }
    { date := "2021-01-02", source := "S", dest := "D", description := "w",
      amount := "$2.50" } rfl (by decide)

/-- C7: `last_n_transactions` processes exactly the transactions of the
(reversed) last-`n` slice that have two splits: filtering the malformed
ones out first changes nothing, and each well-formed transaction of the
slice contributes exactly one record, so a malformed transaction never
aborts the rest of the listing. -/
theorem last_n_transactions_skips_malformed (b : Book) (n : Nat) :
    last_n_transactions b n
      = ((lastSlice b.transactions n).reverse.filter
          (fun t => t.splits.length == 2)).filterMap processTxn ∧
    (last_n_transactions b n).length
      = ((lastSlice b.transactions n).reverse.filter
          (fun t => t.splits.length == 2)).length := by
  have he := filterMap_processTxn_eq_filter (lastSlice b.transactions n).reverse
  refine ⟨he, ?_⟩
  unfold last_n_transactions
  rw [he]
  apply length_filterMap_of_isSome
  intro t ht
  exact processTxn_isSome_of_two t (by simpa using (List.mem_filter.mp ht).2)

/-- Book distinguishing the display-name sort order from the full-name
sort order, with one negative balance; used for the C5 counterexample.
Its accounts have full names `"A"`, `"A!"` and `"A:B"`: since `'!'` lies
between `' '` and `':'` in code-point order, replacing `':'` with
`' ➔ '` swaps the relative order of `"A!"` and `"A:B"`. -/
def bkC5 : Book :=
  { accounts := [{ name := "A", fullname := "A", children := [], balance := 0 },
                 { name := "A!", fullname := "A!", children := [], balance := -500 },
                 { name := "B", fullname := "A:B", children := [], balance := 0 }],
    transactions := [], currencies := ["USD"], commodities := ["USD"],
    saveFails := false, today := "2021-01-01" }

/-- C5 counterexample: on `bkC5` the listing is NOT sorted by full account
name (the entry of `"A:B"` precedes that of `"A!"`), and the negative
balance renders as `"$-5.00"`, which fails the unsigned money pattern. -/
theorem balances_not_sorted_by_fullname :
    balances bkC5 =
      [{ fullname := "A", balance := "$0.00" },
       { fullname := "A ➔ B", balance := "$0.00" },
       { fullname := "A!", balance := "$-5.00" }] ∧
    balancesSortedByFullname bkC5 =
      [{ fullname := "A", balance := "$0.00" },
       { fullname := "A!", balance := "$-5.00" },
       { fullname := "A ➔ B", balance := "$0.00" }] ∧
    balances bkC5 ≠ balancesSortedByFullname bkC5 ∧
    matchesMoney "$-5.00" = false := by
  decide

/-- C5 amended: the balances listing is sorted ascending by the DISPLAY
name (the full name after `':' ↦ ' ➔ '` replacement), and every balance
string matches the signed pattern `$`, optional `-`, digits with
thousands separators, `.`, two digits. -/
theorem balances_sorted_by_display (b : Book) :
    List.Sorted entryLe (balances b) ∧
    (balances b).all (fun e => matchesMoneySigned e.balance) = true := by
  constructor
  · exact List.sorted_insertionSort entryLe _
  · rw [List.all_eq_true]
    intro e he
    have hmem : e ∈ b.accounts.map mkBalEntry :=
      (List.perm_insertionSort entryLe _).mem_iff.mp he
    obtain ⟨a, _, rfl⟩ := List.mem_map.mp hmem
    exact formatComma_matchesSigned a.balance

/-- Book with two resolvable accounts and a working save, used for C8. -/
def bkC8 : Book :=
  { accounts := [{ name := "A", fullname := "A", children := [], balance := 0 },
                 { name := "B", fullname := "B", children := [], balance := 0 }],
    transactions := [], currencies := ["USD"], commodities := ["USD"],
    saveFails := false, today := "2021-01-01" }

/-- C8 counterexample: `add_transaction` performs no validation of the
amount: called with the non-positive amount `-5.00` it still returns
`True` and persists a transaction, instead of returning `False`. -/
theorem negative_amount_is_persisted :
    add_transaction bkC8 "neg" (-500) "A" "B" =
      PyResult.returns (some true)
        { bkC8 with transactions :=
            [{ description := "neg", enterDate := "2021-01-01",
               splits := [{ value := -500, account := "B" },
                          { value := 500, account := "A" }] }] } ∧
    ((-500 : Int) ≤ 0) ∧
    ({ bkC8 with transactions :=
        [{ description := "neg", enterDate := "2021-01-01",
           splits := [{ value := -500, account := "B" },
                      { value := 500, account := "A" }] }] } : Book).transactions
      ≠ bkC8.transactions := by
  decide

/-- C8 amended: `add_transaction` itself checks nothing about `amount`:
whenever both accounts resolve, `USD` exists and the save succeeds, it
returns `True` and persists the transaction for EVERY integer-cent
amount, non-positive ones included.  Positivity and the 2-decimal limit
are enforced only upstream by the web form's `DecimalField(places=2,
rounding=ROUND_HALF_UP)`; a `ValueError` raised by the library for an
invalid numeric value would be caught and reported as `False`, but no
such check happens at call time in `add_transaction`. -/
theorem add_transaction_ignores_amount (b : Book) (descr : String)
    (amount : Int) (dA cA : String) (credit debit : Account)
    (hc : get_account cA b = some credit) (hd : get_account dA b = some debit)
    (hu : "USD" ∈ b.currencies) (hsf : b.saveFails = false) :
    add_transaction b descr amount dA cA =
      PyResult.returns (some true)
        { b with transactions := b.transactions ++
            [{ description := descr, enterDate := b.today,
               splits := [{ value := amount, account := credit.fullname },
                          { value := -amount, account := debit.fullname }] }] } := by
  simp [add_transaction, hc, hd, hu, hsf]

/-- C8 amended witness: the amended theorem applied to `bkC8` with the
non-positive amount `0`. -/
theorem add_transaction_ignores_amount_witness :
    add_transaction bkC8 "zero" 0 "A" "B" =
      PyResult.returns (some true)
        { bkC8 with transactions := bkC8.transactions ++
            [{ description := "zero", enterDate := bkC8.today,
               splits := [{ value := 0, account :=
                    ({ name := "B", fullname := "B", children := [], balance := 0 } : Account).fullname },
                          { value := -0, account :=
                    ({ name := "A", fullname := "A", children := [], balance := 0 } : Account).fullname }] }] } :=
  add_transaction_ignores_amount bkC8 "zero" 0 "A" "B"
    { name := "B", fullname := "B", children := [], balance := 0 }
    { name := "A", fullname := "A", children := [], balance := 0 }
    (by decide) (by decide) (by decide) rfl

/-- C9 counterexample: the number-of-transactions-to-display count is read
through `get_env_var`, which on a missing variable logs at critical
severity but RETURNS `None` instead of terminating the process. -/
theorem num_transactions_read_not_fatal :
    envLookup [] "NUM_TRANSACTIONS" = none ∧
    get_env_var [] "NUM_TRANSACTIONS" = Except.ok none ∧
    (Except.ok (none : Option String) : Except Nat (Option String))
      ≠ Except.error 1 := by
  decide

/-- C9 amended: the ledger file name and ledger directory reads terminate
the process with exit code 1 when the variable is missing (after a
critical log), but the transactions-count read via `get_env_var` merely
logs and returns `None`; its caller in the transactions route then fails
on `int(None)` with an uncaught `TypeError` (through Flask's 500 handler),
not a process exit. -/
theorem config_reads_mixed_fatality (e : Env) :
    (envLookup e "GNUCASH_FILE" = none → get_book_name_from_env e = Except.error 1) ∧
    (envLookup e "GNUCASH_DIR" = none → get_gnucash_dir e = Except.error 1) ∧
    get_env_var e "NUM_TRANSACTIONS" = Except.ok (envLookup e "NUM_TRANSACTIONS") := by
  refine ⟨?_, ?_, rfl⟩
  · intro h; unfold get_book_name_from_env; rw [h]
  · intro h; unfold get_gnucash_dir; rw [h]

/-- C9 amended witness: the amended theorem applied to the empty
environment. -/
theorem config_reads_mixed_fatality_witness :
    get_book_name_from_env [] = Except.error 1 ∧
    get_gnucash_dir [] = Except.error 1 ∧
    get_env_var [] "NUM_TRANSACTIONS" = Except.ok (envLookup [] "NUM_TRANSACTIONS") :=
  ⟨(config_reads_mixed_fatality []).1 (by decide),
   (config_reads_mixed_fatality []).2.1 (by decide),
   (config_reads_mixed_fatality []).2.2⟩

/-- C10: when `add_account` reaches the save step (parent found, no
duplicate child, `USD` commodity present) and the save raises, it
terminates the process with exit code 1, while `add_transaction` under
the same failing save catches the exception and returns `False`. -/
theorem add_account_save_error_exits (b : Book) (newName parent : String)
    (pa : Account)
    (hp : b.accounts.find? (fun a => a.fullname == parent) = some pa)
    (hdup : lowerStr newName ∉ pa.children.map lowerStr)
    (hcm : "USD" ∈ b.commodities)
    (hsf : b.saveFails = true)
    (descr : String) (amount : Int) (dA cA : String) (credit debit : Account)
    (hc : get_account cA b = some credit) (hd : get_account dA b = some debit)
    (hcu : "USD" ∈ b.currencies) :
    add_account b newName parent = Except.error 1 ∧
    add_transaction b descr amount dA cA = PyResult.returns (some false) b := by
  constructor
  · simp only [add_account, hp]
    rw [if_neg hdup, if_pos hcm, if_pos hsf]
  · simp [add_transaction, hc, hd, hcu, hsf]

/-- Book whose save raises, used for the C10 witness. -/
def bkC10 : Book :=
  { accounts := [{ name := "Expenses", fullname := "Expenses", children := ["Food"], balance := 0 },
                 { name := "Food", fullname := "Expenses:Food", children := [], balance := 0 }],
    transactions := [], currencies := ["USD"], commodities := ["USD"],
    saveFails := true, today := "2021-01-01" }

/-- C10 witness: the contrast theorem applied to `bkC10`. -/
theorem add_account_save_error_exits_witness :
    add_account bkC10 "Lunch" "Expenses" = Except.error 1 ∧
    add_transaction bkC10 "d" 100 "Expenses:Food" "Expenses"
      = PyResult.returns (some false) bkC10 :=
  add_account_save_error_exits bkC10 "Lunch" "Expenses"
    { name := "Expenses", fullname := "Expenses", children := ["Food"], balance := 0 }
    (by decide) (by decide) (by decide) rfl
    "d" 100 "Expenses:Food" "Expenses"
    { name := "Expenses", fullname := "Expenses", children := ["Food"], balance := 0 }
    { name := "Food", fullname := "Expenses:Food", children := [], balance := 0 }
    (by decide) (by decide) (by decide)

end GnucashHelper
